import Mathlib

/-!
Verification development for the note.com search-result exporter
(content script `content_script.js`).

The JSON values the content script manipulates are modelled by the
inductive type `Json` below.  JavaScript numbers are modelled as `Int`
(the script only ever produces and consumes integral counts and prices);
`NaN` is modelled as the `none` case of `Option Int` in the numeric
coercion `jsToNumber`.  JavaScript `undefined` is modelled as a failed
lookup (`Option Json` being `none`); `null` is the explicit `Json.null`.
Object property enumeration follows the order of the field list
(insertion order; the JS reordering of integer-like keys is not
modelled, no claim depends on it).
-/

inductive Json where
  | null
  | bool (b : Bool)
  | num (n : Int)
  | str (s : String)
  | arr (elems : List Json)
  | obj (fields : List (String × Json))

/-- JavaScript truthiness of a JSON value (`undefined` handled by
`truthyOpt`).  Empty arrays and empty objects are truthy in JS. -/
def truthy : Json → Bool
  | .null => false
  | .bool b => b
  | .num n => n != 0
  | .str s => s != ""
  | .arr _ => true
  | .obj _ => true

def truthyOpt : Option Json → Bool
  | none => false
  | some v => truthy v

/-- `typeof v === "object" && v !== null`: objects and arrays. -/
def isObjLike : Json → Bool
  | .obj _ => true
  | .arr _ => true
  | _ => false

/-- Property access `o[k]` / `o?.[k]`: `none` models `undefined`.
Lookup returns the first field with the given key.  Property access on
primitives and on arrays (by these non-index names) yields `undefined`. -/
def jsGet : Json → String → Option Json
  | .obj fields, k => fields.lookup k
  | _, _ => none

/-- Optional-chained path access `o?.a?.b?...`. -/
def jsGetPath (j : Json) : List String → Option Json
  | [] => some j
  | k :: ks =>
    match jsGet j k with
    | some v => jsGetPath v ks
    | none => none

/-- `Object.entries(o)`: fields of an object, indexed elements of an
array. -/
def jsEntries : Json → List (String × Json)
  | .obj fields => fields
  | .arr xs => xs.enum.map (fun p => (toString p.1, p.2))
  | _ => []

mutual
/-- JavaScript `String(v)` on a JSON value. -/
def jsToString : Json → String
  | .null => "null"
  | .bool b => if b then "true" else "false"
  | .num n => toString n
  | .str s => s
  | .arr xs => jsArrToString xs
  | .obj _ => "[object Object]"

/-- `Array.prototype.toString`: comma-joined element strings, where
`null` (and `undefined`) become the empty string. -/
def jsArrToString : List Json → String
  | [] => ""
  | [x] => jsElemToString x
  | x :: y :: rest => jsElemToString x ++ "," ++ jsArrToString (y :: rest)

def jsElemToString : Json → String
  | .null => ""
  | v => jsToString v
end

/-- `Number(s)` for a string, restricted to the integer numerals this
program handles: trimmed empty string is 0, an optional sign followed by
decimal digits is that integer, anything else is `NaN` (`none`). -/
def parseNatDigits : List Char → Option Nat
  | [] => none
  | cs =>
    if cs.all Char.isDigit then
      some (cs.foldl (fun acc c => acc * 10 + (c.toNat - '0'.toNat)) 0)
    else none

/-- Leading and trailing whitespace removal over the character list
(the trim JS number coercion performs). -/
def trimChars (cs : List Char) : List Char :=
  ((cs.dropWhile Char.isWhitespace).reverse.dropWhile Char.isWhitespace).reverse

def jsStrToNumber (s : String) : Option Int :=
  match trimChars s.data with
  | [] => some 0
  | '-' :: rest => (parseNatDigits rest).map (fun n => -(n : Int))
  | '+' :: rest => (parseNatDigits rest).map (fun n => (n : Int))
  | cs => (parseNatDigits cs).map (fun n => (n : Int))

/-- JavaScript `Number(v)`; `none` models `NaN`.  Arrays coerce through
their string form: `[] → 0`, a singleton coerces like its element, two
or more elements always give `NaN` (the joined string contains a
comma). -/
def jsToNumber : Json → Option Int
  | .null => some 0
  | .bool b => some (if b then 1 else 0)
  | .num n => some n
  | .str s => jsStrToNumber s
  | .arr [] => some 0
  | .arr [x] => jsStrToNumber (jsElemToString x)
  | .arr (_ :: _ :: _) => none
  | .obj _ => none

/-- `safeStr` from the content script: `undefined`/`null` give `""`,
strings pass through, anything else goes through `String(v)`. -/
def safeStr : Option Json → String
  | none => ""
  | some .null => ""
  | some (.str s) => s
  | some v => jsToString v

/-- Key-candidate loop of `safeNum`: first key whose value is neither
`undefined` nor `null` and coerces to a non-`NaN` number wins. -/
def safeNumLoop (o : Json) : List String → Int
  | [] => 0
  | k :: ks =>
    match jsGet o k with
    | none => safeNumLoop o ks
    | some .null => safeNumLoop o ks
    | some v =>
      match jsToNumber v with
      | some n => n
      | none => safeNumLoop o ks

/-- `safeNum(obj, keys)` from the content script. -/
def safeNum (o : Json) (keys : List String) : Int :=
  match o with
  | .obj _ => safeNumLoop o keys
  | .arr _ => safeNumLoop o keys
  | _ => 0

/-- `a || b || ... || last` over JS values, where `none` is `undefined`. -/
def jsOrChain : List (Option Json) → Option Json
  | [] => none
  | [v] => v
  | v :: w :: rest => if truthyOpt v then v else jsOrChain (w :: rest)

/-- `x₁ || x₂ || ... || default` returning the first truthy value. -/
def firstTruthyJson (default : Json) : List (Option Json) → Json
  | [] => default
  | v :: vs =>
    match v with
    | some j => if truthy j then j else firstTruthyJson default vs
    | none => firstTruthyJson default vs

/-- `s₁ || s₂ || ... || ""` over strings (truthy = non-empty). -/
def firstNonEmpty : List String → String
  | [] => ""
  | s :: rest => if s ≠ "" then s else firstNonEmpty rest

/-!
### JSON Tree Locator (`findNotesArray`)

Translation of `findNotesArray` (content_script.js lines 281-334): the
dotted-path candidates, then `data.data` as an array, then enumeration
of `data.data`'s properties, then enumeration of the top-level
properties other than `data`.
-/

/-- A candidate passes the plain stage test when it is a non-empty
array (`Array.isArray(val) && val.length > 0`). -/
def asNonEmptyArr : Option Json → Option (List Json)
  | some (.arr (x :: xs)) => some (x :: xs)
  | _ => none

/-- A candidate passes the enumeration stage test when it is a
non-empty array whose first element is a non-null `typeof "object"`
value (`typeof value[0] === "object" && value[0] !== null`). -/
def asObjFirstArr : Option Json → Option (List Json)
  | some (.arr (x :: xs)) => if isObjLike x then some (x :: xs) else none
  | _ => none

/-- The nine dotted-path candidates, in source order. -/
def pathCandidates (data : Json) : List (Option Json) :=
  [jsGetPath data ["data", "notes", "contents"],
   jsGetPath data ["data", "notes", "items"],
   jsGetPath data ["data", "notes"],
   jsGetPath data ["data", "contents"],
   jsGetPath data ["data", "search_results"],
   jsGetPath data ["data", "items"],
   jsGet data "notes",
   jsGet data "contents",
   jsGet data "items"]

/-- First candidate in the list that is a non-empty array. -/
def findFirstArr : List (Option Json) → Option (List Json)
  | [] => none
  | v :: vs =>
    match asNonEmptyArr v with
    | some l => some l
    | none => findFirstArr vs

/-- Enumeration of `data.data`'s properties: first value that is a
non-empty array of objects. -/
def scanEntries : List (String × Json) → Option (List Json)
  | [] => none
  | (_, v) :: rest =>
    match asObjFirstArr (some v) with
    | some l => some l
    | none => scanEntries rest

/-- Enumeration of the top-level properties, skipping `data`. -/
def scanEntriesSkipData : List (String × Json) → Option (List Json)
  | [] => none
  | (k, v) :: rest =>
    if k = "data" then scanEntriesSkipData rest
    else
      match asObjFirstArr (some v) with
      | some l => some l
      | none => scanEntriesSkipData rest

/-- `findNotesArray(data)` (content_script.js lines 281-334). -/
def findNotesArray (data : Json) : List Json :=
  if !isObjLike data then []
  else
    match findFirstArr (pathCandidates data) with
    | some l => l
    | none =>
      match asNonEmptyArr (jsGet data "data") with
      | some l => l
      | none =>
        let stage3 :=
          match jsGet data "data" with
          | some (.obj fs) => scanEntries fs
          | _ => none
        match stage3 with
        | some l => l
        | none =>
          match scanEntriesSkipData (jsEntries data) with
          | some l => l
          | none => []

/-!
Spec-side reformulations of the locator used for claim C1.
`findNotesArraySpec` follows the spec's description of the search
order as one flat priority list, with the eligibility test each stage
actually applies (plain non-empty array for the dotted paths and for
`data` itself; non-empty array-of-objects for the two enumeration
stages).  `findNotesArrayClaimedSpec` is the same priority list but
with the claim's uniform eligibility test (non-empty and first element
a non-null object) applied to every candidate; the code does not
implement this.
-/

/-- A locator candidate: the value (if present) and whether the
first-element-must-be-an-object test applies to it. -/
def locatorCandidates (data : Json) : List (Option Json × Bool) :=
  (pathCandidates data).map (fun v => (v, false))
    ++ [(jsGet data "data", false)]
    ++ (match jsGet data "data" with
        | some (.obj fs) => fs.map (fun p => (some p.2, true))
        | _ => [])
    ++ ((jsEntries data).filter (fun p => p.1 ≠ "data")).map
        (fun p => (some p.2, true))

def eligibleAt (c : Option Json × Bool) : Option (List Json) :=
  if c.2 then asObjFirstArr c.1 else asNonEmptyArr c.1

def findFirstEligible : List (Option Json × Bool) → Option (List Json)
  | [] => none
  | c :: cs =>
    match eligibleAt c with
    | some l => some l
    | none => findFirstEligible cs

/-- The locator as the spec phrases it (first eligible candidate in a
fixed flat priority order), with the per-stage eligibility the code
actually uses. -/
def findNotesArraySpec (data : Json) : List Json :=
  if !isObjLike data then []
  else
    match findFirstEligible (locatorCandidates data) with
    | some l => l
    | none => []

/-- The locator as claim C1 states it: the same priority order but with
the first-element-must-be-a-non-null-object test applied to every
candidate uniformly. -/
def findNotesArrayClaimedSpec (data : Json) : List Json :=
  if !isObjLike data then []
  else
    match findFirstEligible ((locatorCandidates data).map
        (fun c => (c.1, true))) with
    | some l => l
    | none => []

/-!
### Field Normalizer (`extractArticleFromNote` and helpers)

Translation of content_script.js lines 339-452.  `buildNoteUrl` can
throw in the source (`href.startsWith` on a truthy non-string `href`);
every caller wraps the extraction in `try/catch` and skips the item, so
the throw is modelled as `none`, observationally identical at every
call site.
-/

structure Article where
  title : String
  likeCount : Int
  price : Int
  url : String
  creator : String
  likeRating : Option Int := none
deriving Repr, DecidableEq

def likeCountKeys : List String :=
  ["like_count", "likeCount", "likes_count", "likesCount",
   "sp_count", "spCount", "suki_count", "sukiCount"]

def priceKeys : List String := ["price", "amount", "body_price", "bodyPrice"]

def urlFieldKeys : List String := ["note_url", "noteUrl", "url"]

def creatorFieldKeys : List String :=
  ["creator_name", "creatorName", "author_name", "authorName"]

/-- `const inner = (note.note && typeof note.note === "object") ?
note.note : note;` -/
def innerView (note : Json) : Json :=
  match jsGet note "note" with
  | some v => if isObjLike v then v else note
  | none => note

/-- `s.startsWith(pat)` over character lists (structural, so concrete
values compute). -/
def listIsInit : List Char → List Char → Bool
  | [], _ => true
  | _ :: _, [] => false
  | p :: ps, c :: cs => p == c && listIsInit ps cs

def startsWithChars (s pat : String) : Bool := listIsInit pat.data s.data

/-- Direct-URL loop of `buildNoteUrl`: first key whose value is a
string starting with `http`. -/
def findHttpStr (o : Json) : List String → Option String
  | [] => none
  | k :: ks =>
    match jsGet o k with
    | some (.str s) =>
      if startsWithChars s "http" then some s else findHttpStr o ks
    | _ => findHttpStr o ks

/-- `buildNoteUrl(note, inner)` (lines 407-430); `none` models the
`TypeError` thrown when a truthy non-string `href` reaches
`href.startsWith`. -/
def buildNoteUrl (note inner : Json) : Option String :=
  match findHttpStr inner urlFieldKeys with
  | some s => some s
  | none =>
    match findHttpStr note urlFieldKeys with
    | some s => some s
    | none =>
      let key := firstTruthyJson (.str "")
        [jsGet inner "key", jsGet note "key", jsGet inner "slug", jsGet note "slug"]
      let user := firstTruthyJson (.obj [])
        [jsGet inner "user", jsGet note "user"]
      let userUrlname : Option Json :=
        if isObjLike user then jsGet user "urlname" else some (.str "")
      let urlname := firstTruthyJson (.str "")
        [userUrlname, jsGet inner "urlname", jsGet note "urlname"]
      if truthy key && truthy urlname then
        some ("https://note.com/" ++ jsToString urlname ++ "/n/" ++ jsToString key)
      else
        let href := firstTruthyJson (.str "")
          [jsGet inner "href", jsGet note "href"]
        if truthy href then
          match href with
          | .str s =>
            some (if startsWithChars s "http" then s
                  else "https://note.com" ++ s)
          | _ => none
        else some ""

/-- First of the two views whose `user` field is a truthy object and
yields a truthy `nickname || name || urlname || display_name`. -/
def creatorFromUser : List Json → Option String
  | [] => none
  | o :: rest =>
    match jsGet o "user" with
    | some user =>
      if truthy user && isObjLike user then
        let name := jsOrChain
          [jsGet user "nickname", jsGet user "name",
           jsGet user "urlname", jsGet user "display_name"]
        if truthyOpt name then some (jsToString (name.getD .null))
        else creatorFromUser rest
      else creatorFromUser rest
    | none => creatorFromUser rest

def creatorFlatLoop (o : Json) : List String → Option String
  | [] => none
  | k :: ks =>
    match jsGet o k with
    | some v => if truthy v then some (jsToString v) else creatorFlatLoop o ks
    | none => creatorFlatLoop o ks

def creatorFromFlat : List Json → Option String
  | [] => none
  | o :: rest =>
    match creatorFlatLoop o creatorFieldKeys with
    | some s => some s
    | none => creatorFromFlat rest

/-- `findCreatorName(note, inner)` (lines 435-452). -/
def findCreatorName (note inner : Json) : String :=
  match creatorFromUser [inner, note] with
  | some s => s
  | none =>
    match creatorFromFlat [inner, note] with
    | some s => s
    | none => ""

/-- `extractArticleFromNote(note)` (lines 339-378).  The final
`Number(x) || 0` coercions are identities on the integers `safeNum`
returns.  The `if (price === "無料")` comparison in the source is dead
code (`safeNum` always returns a number) and is dropped. -/
def extractArticleFromNote (note : Json) : Option Article :=
  if !(truthy note && isObjLike note) then none
  else
    let inner := innerView note
    let title := firstNonEmpty
      [safeStr (jsGet inner "name"), safeStr (jsGet note "name"),
       safeStr (jsGet inner "title"), safeStr (jsGet note "title"),
       safeStr (jsGet inner "headline"), safeStr (jsGet note "headline")]
    let likeInner := safeNum inner likeCountKeys
    let likeCount := if likeInner ≠ 0 then likeInner else safeNum note likeCountKeys
    let priceInner := safeNum inner priceKeys
    let price := if priceInner ≠ 0 then priceInner else safeNum note priceKeys
    match buildNoteUrl note inner with
    | none => none
    | some noteUrl =>
      some { title := title, likeCount := likeCount, price := price,
             url := noteUrl, creator := findCreatorName note inner }

/-- `extractNotesFromApiResponse(data)` (lines 244-275): locate the raw
item array, normalize each item, keep the ones with a non-empty title;
a per-item failure (throw or `null`) skips that item. -/
def extractNotesFromApiResponse (data : Json) : List Article :=
  (findNotesArray data).filterMap (fun n =>
    match extractArticleFromNote n with
    | some a => if a.title ≠ "" then some a else none
    | none => none)

/-!
### Export Encoder (`downloadCSV` / `escapeCsvField`)

Translation of content_script.js lines 813-845, restricted to the pure
text-building part of `downloadCSV` (the Blob/anchor plumbing is the
out-of-scope save collaborator).  The global regex replace
`str.replace(/"/g, '""')` is translated as `doubleQuotesChars`.
-/

/-- `str.replace(/"/g, '""')`. -/
def doubleQuotesChars : List Char → List Char
  | [] => []
  | c :: cs =>
    if c = '"' then '"' :: '"' :: doubleQuotesChars cs
    else c :: doubleQuotesChars cs

/-- `escapeCsvField(value)` (lines 838-845), at its string call sites
(`!value` on a string means the empty string). -/
def escapeCsvField (value : String) : String :=
  if value = "" then "\"\""
  else if value.data.contains '"' || value.data.contains ',' || value.data.contains '\n' then
    "\"" ++ String.mk (doubleQuotesChars value.data) ++ "\""
  else "\"" ++ value ++ "\""

/-- One CSV row of `downloadCSV` (lines 815-822): string columns pass
through `escapeCsvField`, numeric columns through `String(...)`;
`a.likeRating || 0` defaults a missing rating to 0. -/
def csvRowFields (a : Article) : List String :=
  [escapeCsvField a.title,
   toString a.likeCount,
   toString (a.likeRating.getD 0),
   toString a.price,
   escapeCsvField a.url,
   escapeCsvField a.creator]

def csvHeaders : List String :=
  ["タイトル", "スキ数", "高評価数", "単価", "記事URL", "クリエイター名"]

/-- The `csvContent` string built by `downloadCSV` (line 824). -/
def buildCsvContent (articles : List Article) : String :=
  String.intercalate "\n"
    (String.intercalate "," csvHeaders
      :: articles.map (fun a => String.intercalate "," (csvRowFields a)))

/-!
### Rating Enricher (`fetchLikeRating` / `findRatingInObject`)

Translation of content_script.js lines 599-750.  The two network
fetches are modelled by explicit result values passed in; the fetched
article page markup is modelled by what the four text patterns extract
from it (`HtmlPage` below), which is exactly the information the code
reads from the raw HTML string.
-/

def ratingFieldCandidates : List String :=
  ["rating_count", "ratingCount",
   "recommend_count", "recommendCount",
   "evaluation_count", "evaluationCount",
   "high_rating_count", "highRatingCount",
   "buyer_like_count", "buyerLikeCount",
   "purchase_like_count", "purchaseLikeCount"]

/-- Direct-field loop of `findRatingInObject`: first candidate key
whose value is non-null, non-`NaN` and strictly positive. -/
def findRatingDirect (o : Json) : List String → Int
  | [] => 0
  | k :: ks =>
    match jsGet o k with
    | none => findRatingDirect o ks
    | some .null => findRatingDirect o ks
    | some v =>
      match jsToNumber v with
      | some n => if n > 0 then n else findRatingDirect o ks
      | none => findRatingDirect o ks

/-- Auxiliary size bound: dropping the keys of a field list does not
increase its `sizeOf`. -/
theorem sizeOf_map_snd_le (fs : List (String × Json)) :
    sizeOf (fs.map Prod.snd) ≤ sizeOf fs := by
  induction fs with
  | nil => simp
  | cons p rest ih =>
    cases p with
    | mk k v => simp [List.map]; omega

theorem sizeOf_map_snd_lt (fs : List (String × Json)) :
    sizeOf (fs.map Prod.snd) < sizeOf (Json.obj fs) := by
  have := sizeOf_map_snd_le fs
  simp; omega

mutual
/-- `findRatingInObject(obj, fieldCandidates, depth)` (lines 729-750):
depth-bounded (`depth > 3` cuts off), direct candidate fields first,
then recursion into non-array object children in enumeration order. -/
def findRatingInObject (o : Json) (cands : List String) (depth : Nat) : Int :=
  match o with
  | .obj fs =>
    if depth > 3 then 0
    else
      let direct := findRatingDirect (.obj fs) cands
      if direct > 0 then direct
      else findRatingChildren (fs.map Prod.snd) cands depth
  | .arr xs =>
    if depth > 3 then 0
    else
      let direct := findRatingDirect (.arr xs) cands
      if direct > 0 then direct
      else findRatingChildren xs cands depth
  | _ => 0
termination_by sizeOf o
decreasing_by
  all_goals first
    | exact sizeOf_map_snd_lt _
    | simp

/-- `for (const val of Object.values(obj))`: recurse into children that
are truthy, `typeof "object"` and not arrays. -/
def findRatingChildren (vals : List Json) (cands : List String) (depth : Nat) : Int :=
  match vals with
  | [] => 0
  | v :: rest =>
    match v with
    | .obj fs =>
      let found := findRatingInObject (.obj fs) cands (depth + 1)
      if found > 0 then found else findRatingChildren rest cands depth
    | _ => findRatingChildren rest cands depth
termination_by sizeOf vals
decreasing_by
  all_goals simp
  omega
end

/-- The item-identifier scan of `fetchLikeRating`: the regex
`/\/n\/([a-zA-Z0-9]+)/`, i.e. the first position where `/n/` is
followed by at least one ASCII alphanumeric character; the capture is
the maximal alphanumeric run. -/
def isUrlKeyChar (c : Char) : Bool := c.isAlpha || c.isDigit

def scanNoteKey : List Char → Option String
  | [] => none
  | c :: rest =>
    if c = '/' then
      match rest with
      | 'n' :: '/' :: r2 =>
        let run := r2.takeWhile isUrlKeyChar
        if run.isEmpty then scanNoteKey rest else some (String.mk run)
      | _ => scanNoteKey rest
    else scanNoteKey rest

def extractNoteKey (url : String) : Option String := scanNoteKey url.data

/-- Outcome of the detail-API fetch in `fetchLikeRating`.  `netErr`
covers both a rejected `fetch` and a failing `response.json()` — both
are caught by the same handler, which sets `apiNetworkError`.  A
non-success status (`!apiRes.ok`) merely skips the API step. -/
inductive DetailApiResult where
  | netErr
  | httpErr
  | ok (body : Json)

/-- What the four HTML fallback patterns extract from the fetched
article page markup (content_script.js lines 667-710): the digits of
the first `"N人が高評価"` match, the decoded `__NEXT_DATA__` script
payload (`none` when the script is absent or its JSON does not parse),
the first rating-field number inside a `__NUXT__` blob, and the first
quoted rating-field/number pair anywhere in the page. -/
structure HtmlPage where
  ratingText : Option Nat
  nextData : Option Json
  nuxtRating : Option Nat
  jsonRating : Option Nat

inductive PageFetchResult where
  | netErr
  | httpErr
  | ok (page : HtmlPage)

/-- Method 2 of `fetchLikeRating` (lines 661-718): the article-page
HTML fallback, trying the four patterns in order; any fetch failure
falls through to 0. -/
def htmlRatingStep (page : PageFetchResult) : Int :=
  match page with
  | .netErr => 0
  | .httpErr => 0
  | .ok html =>
    match html.ratingText with
    | some c => (c : Int)
    | none =>
      let viaNextData :=
        match html.nextData with
        | some j => findRatingInObject j ratingFieldCandidates 0
        | none => 0
      if viaNextData > 0 then viaNextData
      else
        match html.nuxtRating with
        | some c => (c : Int)
        | none =>
          match html.jsonRating with
          | some c => (c : Int)
          | none => 0

/-- `const noteData = apiData?.data || apiData;` (line 629). -/
def apiNoteData (apiData : Json) : Json :=
  match jsGet apiData "data" with
  | some v => if truthy v then v else apiData
  | none => apiData

/-- `const inner = noteData?.note || noteData;` (line 630). -/
def apiInner (noteData : Json) : Json :=
  match jsGet noteData "note" with
  | some v => if truthy v then v else noteData
  | none => noteData

/-- Method 1 of `fetchLikeRating` (lines 620-658): the detail-API step.
Returns the rating found (only values `> 0` are accepted, scanning the
nested view before the top-level body) and the `apiNetworkError`
flag. -/
def apiRatingStep (api : DetailApiResult) : Option Int × Bool :=
  match api with
  | .netErr => (none, true)
  | .httpErr => (none, false)
  | .ok apiData =>
    let noteData := apiNoteData apiData
    let inner := apiInner noteData
    let r1 := safeNum inner ratingFieldCandidates
    if r1 > 0 then (some r1, false)
    else
      let r2 := safeNum noteData ratingFieldCandidates
      if r2 > 0 then (some r2, false) else (none, false)

/-- `fetchLikeRating(articleUrl)` (lines 599-724) as a function of the
URL and the outcomes of its two fetches.  The cascade: detail API
rating fields on the `note`-nested view then the top-level body (only
values `> 0` are accepted), then — unless the API fetch failed at the
network level — the four HTML patterns in order. -/
def fetchLikeRating (articleUrl : String) (api : DetailApiResult)
    (page : PageFetchResult) : Int :=
  if articleUrl = "" then 0
  else
    match extractNoteKey articleUrl with
    | none => 0
    | some _ =>
      match (apiRatingStep api).1 with
      | some r => r
      | none => if (apiRatingStep api).2 then 0 else htmlRatingStep page

/-!
### API Harvester (`getSearchParams` / `fetchFromAPI`)

Translation of content_script.js lines 65-149.  The current page URL is
modelled by its decoded query-parameter pairs; the network is modelled
by a map from request round (page index, `start = index * PAGE_SIZE`)
to the outcome of that round's fetch.  The returned `Nat` counts the
requests actually issued.
-/

structure SearchParams where
  q : String
  context : String
  mode : String
  sort : String

/-- `url.searchParams.get(k) || default`: first pair with the key, the
default when absent or empty. -/
def queryParamOr (pairs : List (String × String)) (k default : String) : String :=
  match pairs.lookup k with
  | some v => if v ≠ "" then v else default
  | none => default

/-- `getSearchParams()` (lines 65-73). -/
def getSearchParams (pairs : List (String × String)) : SearchParams :=
  { q := queryParamOr pairs "q" ""
    context := queryParamOr pairs "context" "note"
    mode := queryParamOr pairs "mode" "search"
    sort := queryParamOr pairs "sort" "" }

/-- Outcome of one page request of `fetchFromAPI`: a network error
(the `fetch`/`text()` rejection), a non-success status, a body that is
not JSON, or a decoded JSON body. -/
inductive SearchPageResult where
  | netErr
  | httpErr
  | jsonErr
  | ok (body : Json)

def searchPageFails : SearchPageResult → Bool
  | .ok _ => false
  | _ => true

/-- The pagination loop of `fetchFromAPI` (lines 91-148).  Each round:
any fetch failure returns `null`; a page with zero normalized items
ends the loop; otherwise items are pushed only up to `targetCount`.
After the loop, a non-empty accumulator is returned, `null` otherwise.
Recursion is on `target - acc.length`, which the push step strictly
decreases. -/
def fetchFromAPIGo (pages : Nat → SearchPageResult) (target : Nat)
    (idx : Nat) (acc : List Article) : Option (List Article) × Nat :=
  if h : acc.length < target then
    match pages idx with
    | .netErr => (none, idx + 1)
    | .httpErr => (none, idx + 1)
    | .jsonErr => (none, idx + 1)
    | .ok body =>
      match extractNotesFromApiResponse body with
      | [] => (if acc.length > 0 then some acc else none, idx + 1)
      | p :: ps =>
        fetchFromAPIGo pages target (idx + 1)
          (acc ++ (p :: ps).take (target - acc.length))
  else (if acc.length > 0 then some acc else none, idx)
termination_by target - acc.length
decreasing_by
  simp [List.length_take]
  omega

/-- `fetchFromAPI(targetCount)` (lines 78-149): build the query from
the page URL's parameters, bail out with `null` before any request when
the search text is empty, else run the pagination loop. -/
def fetchFromAPI (pairs : List (String × String))
    (pages : Nat → SearchPageResult) (target : Nat) :
    Option (List Article) × Nat :=
  let params := getSearchParams pairs
  if params.q = "" then (none, 0)
  else fetchFromAPIGo pages target 0 []

/-!
### Scroll Collector (`autoScrollAndCollect`)

Translation of content_script.js lines 779-809.  The page's rendered
state at each attempt is modelled by `snaps : Nat → List Article`,
attempt `i` harvesting `snaps i` (the result of
`collectArticlesFromDom()` after `i` scrolls).  The session status
stays `"scraping"` for the whole loop — nothing in the single-threaded
run mutates it while the loop is suspended — so the `while` condition
is modelled as `true`.  The loop is not structurally terminating (that
is the subject of claim C6), so it takes explicit fuel; `none` means
the loop has not returned within `fuel` iterations. -/
def autoScrollGo (snaps : Nat → List Article) (target : Nat) :
    Nat → Nat → Nat → Nat → Option (List Article)
  | 0, _, _, _ => none
  | fuel + 1, i, lastCount, retries =>
    let articles := snaps i
    if articles.length ≥ target then some (articles.take target)
    else if articles.length = lastCount then
      if retries + 1 ≥ 15 then some articles
      else autoScrollGo snaps target fuel (i + 1) articles.length (retries + 1)
    else autoScrollGo snaps target fuel (i + 1) articles.length 0

/-- `autoScrollAndCollect(targetCount)` with `lastArticleCount = 0`,
`noNewArticleRetries = 0` initially. -/
def autoScrollAndCollect (snaps : Nat → List Article) (target fuel : Nat) :
    Option (List Article) :=
  autoScrollGo snaps target fuel 0 0 0

/-- The loop terminates (for some fuel) on the given inputs. -/
def autoScrollTerminates (snaps : Nat → List Article) (target : Nat) : Prop :=
  ∃ fuel r, autoScrollAndCollect snaps target fuel = some r

/-!
### Session State Machine (message listener, lines 859-929)
-/

inductive Status where
  | idle
  | scraping
  | completed
  | error
deriving Repr, DecidableEq

structure ScrapingState where
  status : Status
  current : Nat
  targetCount : Nat
  articles : List Article
  message : String
deriving Repr, DecidableEq

/-- The state created at script load (lines 13-19). -/
def initialScrapingState : ScrapingState :=
  { status := .idle, current := 0, targetCount := 0, articles := [], message := "" }

inductive StartResponse where
  | alreadyRunning
  | started
deriving Repr, DecidableEq

/-- The synchronous part of the `startScraping` message handler (lines
860-874): a duplicate start while scraping is acknowledged with
`already_running` and changes nothing; otherwise the state is reset to
a fresh `scraping` state with the target taken from the request.  (The
asynchronous pipeline that later moves the state to `completed` or
`error` runs after this response is sent.) -/
def handleStartScraping (st : ScrapingState) (count : Nat) :
    StartResponse × ScrapingState :=
  if st.status = .scraping then (.alreadyRunning, st)
  else (.started,
    { status := .scraping, current := 0, targetCount := count,
      articles := [], message := "" })

/-!
## Theorems

### C3 — Export Encoder field quoting
-/

/-- Number of quote characters in a string. -/
def quoteCount (s : String) : Nat := s.data.count '"'

/-- The formalization of "wrapped in quote characters": at least two
characters, the first and the last being `"`. -/
def isQuotedField (s : String) : Bool :=
  decide (2 ≤ s.length) && (s.data.head? == some '"') && (s.data.getLast? == some '"')

theorem data_quote_wrap (mid : String) :
    ("\"" ++ mid ++ "\"").data = '"' :: (mid.data ++ ['"']) := by
  simp [String.data_append]

theorem isQuotedField_wrap (mid : String) :
    isQuotedField ("\"" ++ mid ++ "\"") = true := by
  have hd := data_quote_wrap mid
  simp only [isQuotedField, Bool.and_eq_true, beq_iff_eq, decide_eq_true_eq]
  refine ⟨⟨?_, ?_⟩, ?_⟩
  · have h1 : ("\"" ++ mid ++ "\"").length = 1 + mid.length + 1 := by
      rw [String.length_append, String.length_append]
      rfl
    omega
  · rw [hd]; rfl
  · rw [hd]
    rw [show '"' :: (mid.data ++ ['"']) = ('"' :: mid.data) ++ ['"'] from rfl]
    exact List.getLast?_concat _

theorem quoteCount_wrap (mid : String) :
    quoteCount ("\"" ++ mid ++ "\"") = 2 + quoteCount mid := by
  unfold quoteCount
  rw [data_quote_wrap mid]
  simp [List.count_cons, List.count_append]
  omega

theorem count_doubleQuotesChars (l : List Char) :
    (doubleQuotesChars l).count '"' = 2 * l.count '"' := by
  induction l with
  | nil => rfl
  | cons c cs ih =>
    by_cases h : c = '"'
    · subst h; simp [doubleQuotesChars, List.count_cons, ih]; omega
    · simp [doubleQuotesChars, h, List.count_cons, ih]

theorem count_zero_of_contains_false (l : List Char) (c : Char)
    (h : l.contains c = false) : l.count c = 0 := by
  rw [List.count_eq_zero]
  have h2 : l.elem c = false := h
  rw [List.elem_eq_mem] at h2
  exact of_decide_eq_false h2

/-- Every `escapeCsvField` result is wrapped in quotes and doubles the
embedded quotes. -/
theorem escapeCsvField_quoted (s : String) :
    isQuotedField (escapeCsvField s) = true ∧
    quoteCount (escapeCsvField s) = 2 + 2 * quoteCount s := by
  unfold escapeCsvField
  by_cases h0 : s = ""
  · subst h0
    constructor <;> rfl
  · rw [if_neg h0]
    by_cases hc : (s.data.contains '"' || s.data.contains ',' || s.data.contains '\n') = true
    · rw [if_pos hc]
      refine ⟨isQuotedField_wrap _, ?_⟩
      rw [quoteCount_wrap]
      unfold quoteCount
      rw [show (String.mk (doubleQuotesChars s.data)).data = doubleQuotesChars s.data from rfl]
      rw [count_doubleQuotesChars]
    · rw [if_neg hc]
      refine ⟨isQuotedField_wrap _, ?_⟩
      rw [quoteCount_wrap]
      have hq : s.data.contains '"' = false := by
        rcases Bool.eq_false_or_eq_true (s.data.contains '"') with h | h
        · exact absurd (show (s.data.contains '"' || s.data.contains ',' || s.data.contains '\n') = true by rw [h]; rfl) hc
        · exact h
      have : quoteCount s = 0 := count_zero_of_contains_false _ _ hq
      omega

/-- A concrete enriched article used to exhibit the unquoted numeric
columns of the CSV row. -/
def sampleExportArticle : Article :=
  { title := "T", likeCount := 3, price := 5,
    url := "https://note.com/u/n/n1", creator := "c", likeRating := some 0 }

/-- C3 (counterexample): not every field of a CSV row is wrapped in
quote characters — the engagement-count column of a concrete row is the
bare string `3`, so the claim that every field of every row is quoted
fails on `downloadCSV`'s row construction. -/
theorem csvRow_not_all_quoted :
    ((csvRowFields sampleExportArticle).all isQuotedField) = false ∧
    (csvRowFields sampleExportArticle).get? 1 = some "3" := by
  constructor <;> rfl

/-- C3 (amended): in `downloadCSV`/`escapeCsvField`, every string
column (title, URL, creator) passes through `escapeCsvField`, which
always wraps the value in quote characters and doubles every embedded
quote, with the empty string giving exactly two quote characters and
`a"b` giving the quoted form with the inner quote doubled; the numeric
columns (likeCount, likeRating, price) are emitted as bare decimal
strings without quotes. -/
theorem csv_field_escaping :
    (∀ s, isQuotedField (escapeCsvField s) = true ∧
      quoteCount (escapeCsvField s) = 2 + 2 * quoteCount s)
    ∧ (∀ a : Article, csvRowFields a =
        [escapeCsvField a.title, toString a.likeCount,
         toString (a.likeRating.getD 0), toString a.price,
         escapeCsvField a.url, escapeCsvField a.creator])
    ∧ escapeCsvField "" = "\"\""
    ∧ escapeCsvField "a\"b" = "\"a\"\"b\"" :=
  ⟨escapeCsvField_quoted, fun _ => rfl, rfl, by rfl⟩

/-!
### C7 — Session state machine start transition
-/

/-- C7: a `startScraping` request while the status is already
`scraping` is acknowledged with `already_running` and leaves the state
(every field) unchanged; in any other status it is acknowledged with
`started` and the state becomes `scraping` with the progress counter
reset to 0, the target taken from the request, the article list cleared
and the message cleared. -/
theorem startScraping_transition (st : ScrapingState) (count : Nat) :
    (st.status = .scraping → handleStartScraping st count = (.alreadyRunning, st))
    ∧ (st.status ≠ .scraping →
        handleStartScraping st count =
          (.started, { status := .scraping, current := 0, targetCount := count,
                       articles := [], message := "" })) := by
  unfold handleStartScraping
  constructor
  · intro h; rw [if_pos h]
  · intro h; rw [if_neg h]

/-- Witness for C7 at concrete states: a duplicate start while
scraping is rejected unchanged; a start from the initial idle state
starts a fresh run. -/
theorem startScraping_transition_witness :
    handleStartScraping
      { status := .scraping, current := 3, targetCount := 7,
        articles := [], message := "m" } 5 =
      (.alreadyRunning,
       { status := .scraping, current := 3, targetCount := 7,
         articles := [], message := "m" })
    ∧ handleStartScraping initialScrapingState 5 =
      (.started, { status := .scraping, current := 0, targetCount := 5,
                   articles := [], message := "" }) :=
  ⟨(startScraping_transition _ 5).1 rfl,
   (startScraping_transition initialScrapingState 5).2 (by decide)⟩

/-!
### C10 — empty search query short-circuits the API harvester
-/

/-- C10: when the page URL carries no non-empty `q` query parameter,
`fetchFromAPI` returns `null` immediately and issues zero network
requests, for every target count and every network behaviour. -/
theorem fetchFromAPI_empty_query (pairs : List (String × String))
    (pages : Nat → SearchPageResult) (target : Nat)
    (h : pairs.lookup "q" = none ∨ pairs.lookup "q" = some "") :
    fetchFromAPI pairs pages target = (none, 0) := by
  unfold fetchFromAPI getSearchParams queryParamOr
  rcases h with h | h <;> simp [h]

/-- Witness for C10: a URL with no query parameters at all. -/
theorem fetchFromAPI_empty_query_witness :
    fetchFromAPI [] (fun _ => .ok (.obj [])) 10 = (none, 0) :=
  fetchFromAPI_empty_query [] _ 10 (Or.inl rfl)

/-!
### C9 — depth bound of `findRatingInObject`
-/

/-- A single-field object whose value has no numeric coercion yields
nothing in the direct candidate scan. -/
theorem findRatingDirect_single_nonnum (k : String) (v : Json)
    (cands : List String) (hv : jsToNumber v = none) :
    findRatingDirect (.obj [(k, v)]) cands = 0 := by
  induction cands with
  | nil => rfl
  | cons c cs ih =>
    unfold findRatingDirect
    cases hck : (c == k) with
    | true =>
      have hget : jsGet (.obj [(k, v)]) c = some v := by
        simp [jsGet, List.lookup, hck]
      rw [hget]
      cases v with
      | null => simp [jsToNumber] at hv
      | bool b => simp [jsToNumber] at hv
      | num n => simp [jsToNumber] at hv
      | str s => simp [hv, ih]
      | arr xs => simp [hv, ih]
      | obj fs => simp [hv, ih]
    | false =>
      have hget : jsGet (.obj [(k, v)]) c = none := by
        simp [jsGet, List.lookup, hck]
      rw [hget]
      exact ih

/-- At depth at most 3, a single-field wrapper object delegates the
search to its object child at the next depth. -/
theorem findRatingInObject_single_wrapper (k : String)
    (fs : List (String × Json)) (cands : List String) (d : Nat) (hd : d ≤ 3) :
    findRatingInObject (.obj [(k, .obj fs)]) cands d =
      (if findRatingInObject (.obj fs) cands (d + 1) > 0
       then findRatingInObject (.obj fs) cands (d + 1) else 0) := by
  have hdir : findRatingDirect (.obj [(k, .obj fs)]) cands = 0 :=
    findRatingDirect_single_nonnum k (.obj fs) cands rfl
  conv_lhs => rw [findRatingInObject]
  rw [if_neg (show ¬ d > 3 by omega)]
  simp only [hdir, List.map]
  rw [if_neg (show ¬ (0 : Int) > 0 by omega)]
  conv_lhs => rw [findRatingChildren]
  simp only [findRatingChildren]

/-- The positive candidate value is found by the direct scan when the
object carries it under the first candidate key and the depth bound is
not yet exceeded. -/
theorem findRatingInObject_base (v : Int) (d : Nat) (hv : 0 < v) (hd : d ≤ 3) :
    findRatingInObject (.obj [("rating_count", .num v)])
      ratingFieldCandidates d = v := by
  unfold findRatingInObject
  rw [if_neg (by omega)]
  have hdir : findRatingDirect (.obj [("rating_count", .num v)])
      ratingFieldCandidates = v := by
    unfold ratingFieldCandidates findRatingDirect
    simp [jsGet, List.lookup, jsToNumber, hv]
  simp only [hdir]
  rw [if_pos (by omega)]

/-- Past the depth bound the search returns 0 for every input. -/
theorem findRatingInObject_deep (j : Json) (cands : List String) (d : Nat)
    (hd : 3 < d) : findRatingInObject j cands d = 0 := by
  cases j with
  | obj fs =>
    unfold findRatingInObject
    rw [if_pos hd]
  | arr xs =>
    unfold findRatingInObject
    rw [if_pos hd]
  | null => unfold findRatingInObject; rfl
  | bool b => unfold findRatingInObject; rfl
  | num n => unfold findRatingInObject; rfl
  | str s => unfold findRatingInObject; rfl

/-- C9: the recursive rating search is depth-bounded — a positive
rating-candidate field nested two object levels deep is found and its
value returned, a rating-candidate field nested four object levels deep
is never found (whatever its value and whatever the wrapper keys), and
past the depth bound the search finds nothing in any input. -/
theorem rating_search_depth_bound :
    (∀ (v : Int) (k1 k2 : String), 0 < v →
      findRatingInObject
        (.obj [(k1, .obj [(k2, .obj [("rating_count", .num v)])])])
        ratingFieldCandidates 0 = v)
    ∧ (∀ (v : Int) (k1 k2 k3 k4 : String),
      findRatingInObject
        (.obj [(k1, .obj [(k2, .obj [(k3, .obj [(k4,
          .obj [("rating_count", .num v)])])])])])
        ratingFieldCandidates 0 = 0)
    ∧ (∀ (j : Json) (cands : List String) (d : Nat), 3 < d →
      findRatingInObject j cands d = 0) := by
  refine ⟨?_, ?_, ?_⟩
  · intro v k1 k2 hv
    rw [findRatingInObject_single_wrapper _ _ _ _ (by omega),
        findRatingInObject_single_wrapper _ _ _ _ (by omega),
        findRatingInObject_base v 2 hv (by omega)]
    simp [gt_iff_lt, hv]
  · intro v k1 k2 k3 k4
    rw [findRatingInObject_single_wrapper _ _ _ _ (by omega),
        findRatingInObject_single_wrapper _ _ _ _ (by omega),
        findRatingInObject_single_wrapper _ _ _ _ (by omega),
        findRatingInObject_single_wrapper _ _ _ _ (by omega),
        findRatingInObject_deep _ _ 4 (by omega)]
    simp
  · exact fun j cands d hd => findRatingInObject_deep j cands d hd

/-- Witness for C9 at concrete inputs: a rating field two levels deep
is found (value 12), four levels deep it is not (value 99 unreached),
and at depth 4 nothing is found. -/
theorem rating_search_depth_bound_witness :
    findRatingInObject
      (.obj [("a", .obj [("b", .obj [("rating_count", .num 12)])])])
      ratingFieldCandidates 0 = 12
    ∧ findRatingInObject
      (.obj [("a", .obj [("b", .obj [("c", .obj [("d",
        .obj [("rating_count", .num 99)])])])])])
      ratingFieldCandidates 0 = 0
    ∧ findRatingInObject (.obj [("rating_count", .num 5)])
      ratingFieldCandidates 4 = 0 :=
  ⟨rating_search_depth_bound.1 12 "a" "b" (by norm_num),
   rating_search_depth_bound.2.1 99 "a" "b" "c" "d",
   rating_search_depth_bound.2.2 _ _ 4 (by norm_num)⟩

/-!
### C4 — `fetchLikeRating` contract
-/

mutual
/-- No key of the value (at any nesting level) is one of the
rating-specific candidate field names. -/
def noRatingKeys : Json → Bool
  | .obj fs => noRatingKeysFields fs
  | .arr xs => noRatingKeysElems xs
  | _ => true
termination_by j => sizeOf j
decreasing_by
  all_goals simp

def noRatingKeysFields : List (String × Json) → Bool
  | [] => true
  | (k, v) :: rest =>
    !(ratingFieldCandidates.contains k) && noRatingKeys v
      && noRatingKeysFields rest
termination_by fs => sizeOf fs
decreasing_by
  all_goals simp
  all_goals omega

def noRatingKeysElems : List Json → Bool
  | [] => true
  | v :: rest => noRatingKeys v && noRatingKeysElems rest
termination_by vs => sizeOf vs
decreasing_by
  all_goals simp
  all_goals omega
end

/-- A field list without rating keys never resolves a rating-candidate
key. -/
theorem lookup_none_of_noRatingKeysFields (fs : List (String × Json))
    (h : noRatingKeysFields fs = true) (c : String)
    (hc : ratingFieldCandidates.contains c = true) : fs.lookup c = none := by
  induction fs with
  | nil => rfl
  | cons p rest ih =>
    cases p with
    | mk k v =>
      rw [noRatingKeysFields] at h
      simp only [Bool.and_eq_true, Bool.not_eq_true'] at h
      obtain ⟨⟨hk, _⟩, hrest⟩ := h
      unfold List.lookup
      cases hck : (c == k) with
      | true =>
        have : c = k := by simpa using hck
        subst this
        rw [hc] at hk
        cases hk
      | false => exact ih hrest

theorem jsGet_cand_none (j : Json) (h : noRatingKeys j = true) (c : String)
    (hc : ratingFieldCandidates.contains c = true) : jsGet j c = none := by
  cases j with
  | obj fs =>
    rw [noRatingKeys] at h
    exact lookup_none_of_noRatingKeysFields fs h c hc
  | arr xs => rfl
  | null => rfl
  | bool b => rfl
  | num n => rfl
  | str s => rfl

theorem safeNumLoop_allnone (j : Json) (keys : List String)
    (h : ∀ c ∈ keys, jsGet j c = none) : safeNumLoop j keys = 0 := by
  induction keys with
  | nil => rfl
  | cons c cs ih =>
    unfold safeNumLoop
    rw [h c (by simp)]
    exact ih (fun x hx => h x (by simp [hx]))

theorem safeNum_noRating (j : Json) (h : noRatingKeys j = true) :
    safeNum j ratingFieldCandidates = 0 := by
  have hall : ∀ c ∈ ratingFieldCandidates, jsGet j c = none := by
    intro c hcmem
    refine jsGet_cand_none j h c ?_
    have : ratingFieldCandidates.elem c = decide (c ∈ ratingFieldCandidates) :=
      List.elem_eq_mem c ratingFieldCandidates
    simp [List.contains, this, hcmem]
  cases j with
  | obj fs => exact safeNumLoop_allnone _ _ hall
  | arr xs => exact safeNumLoop_allnone _ _ hall
  | null => rfl
  | bool b => rfl
  | num n => rfl
  | str s => rfl

theorem findRatingDirect_allnone (j : Json) (keys : List String)
    (h : ∀ c ∈ keys, jsGet j c = none) : findRatingDirect j keys = 0 := by
  induction keys with
  | nil => rfl
  | cons c cs ih =>
    unfold findRatingDirect
    rw [h c (by simp)]
    exact ih (fun x hx => h x (by simp [hx]))

theorem noRatingKeysFields_lookup (fs : List (String × Json)) (k : String)
    (v : Json) (h : noRatingKeysFields fs = true) (hl : fs.lookup k = some v) :
    noRatingKeys v = true := by
  induction fs with
  | nil => cases hl
  | cons p rest ih =>
    cases p with
    | mk k0 v0 =>
      rw [noRatingKeysFields] at h
      simp only [Bool.and_eq_true] at h
      obtain ⟨⟨_, hv0⟩, hrest⟩ := h
      unfold List.lookup at hl
      cases hck : (k == k0) with
      | true => rw [hck] at hl; cases hl; exact hv0
      | false => rw [hck] at hl; exact ih hrest hl

theorem noRatingKeys_get (j : Json) (k : String) (v : Json)
    (hj : noRatingKeys j = true) (hget : jsGet j k = some v) :
    noRatingKeys v = true := by
  cases j with
  | obj fs =>
    rw [noRatingKeys] at hj
    exact noRatingKeysFields_lookup fs k v hj hget
  | arr xs => cases hget
  | null => cases hget
  | bool b => cases hget
  | num n => cases hget
  | str s => cases hget

theorem noRatingKeysFields_mem_snd (fs : List (String × Json))
    (h : noRatingKeysFields fs = true) :
    ∀ v ∈ fs.map Prod.snd, noRatingKeys v = true := by
  induction fs with
  | nil => intro v hv; cases hv
  | cons p rest ih =>
    cases p with
    | mk k0 v0 =>
      rw [noRatingKeysFields] at h
      simp only [Bool.and_eq_true] at h
      obtain ⟨⟨_, hv0⟩, hrest⟩ := h
      intro v hv
      simp only [List.map] at hv
      rcases List.mem_cons.mp hv with hv | hv
      · subst hv; exact hv0
      · exact ih hrest v hv

theorem noRatingKeysElems_mem (xs : List Json)
    (h : noRatingKeysElems xs = true) : ∀ v ∈ xs, noRatingKeys v = true := by
  induction xs with
  | nil => intro v hv; cases hv
  | cons x rest ih =>
    rw [noRatingKeysElems] at h
    simp only [Bool.and_eq_true] at h
    intro v hv
    rcases List.mem_cons.mp hv with hv | hv
    · subst hv; exact h.1
    · exact ih h.2 v hv

theorem cands_contains_of_mem (c : String) (hc : c ∈ ratingFieldCandidates) :
    ratingFieldCandidates.contains c = true := by
  have he : ratingFieldCandidates.elem c = decide (c ∈ ratingFieldCandidates) :=
    List.elem_eq_mem c ratingFieldCandidates
  simp [List.contains, he, hc]

theorem findRating_noRating_mutual (n : Nat) :
    (∀ j : Json, sizeOf j ≤ n → noRatingKeys j = true →
      ∀ d, findRatingInObject j ratingFieldCandidates d = 0)
    ∧ (∀ vals : List Json, sizeOf vals ≤ n →
      (∀ v ∈ vals, noRatingKeys v = true) →
      ∀ d, findRatingChildren vals ratingFieldCandidates d = 0) := by
  induction n using Nat.strong_induction_on with
  | _ n ih =>
    constructor
    · intro j hsize hnr d
      cases j with
      | obj fs =>
        unfold findRatingInObject
        by_cases hd : d > 3
        · rw [if_pos hd]
        · rw [if_neg hd]
          have hdir : findRatingDirect (.obj fs) ratingFieldCandidates = 0 :=
            findRatingDirect_allnone _ _
              (fun c hcmem => jsGet_cand_none _ hnr c (cands_contains_of_mem c hcmem))
          simp only [hdir]
          rw [if_neg (show ¬ (0 : Int) > 0 by omega)]
          have hm : sizeOf (fs.map Prod.snd) < n :=
            lt_of_lt_of_le (sizeOf_map_snd_lt fs) hsize
          exact (ih _ hm).2 _ le_rfl
            (noRatingKeysFields_mem_snd fs (by rw [noRatingKeys] at hnr; exact hnr)) d
      | arr xs =>
        unfold findRatingInObject
        by_cases hd : d > 3
        · rw [if_pos hd]
        · rw [if_neg hd]
          have hdir : findRatingDirect (.arr xs) ratingFieldCandidates = 0 :=
            findRatingDirect_allnone _ _ (fun c _ => rfl)
          simp only [hdir]
          rw [if_neg (show ¬ (0 : Int) > 0 by omega)]
          have hm : sizeOf xs < n := by
            have : sizeOf xs < sizeOf (Json.arr xs) := by simp
            omega
          exact (ih _ hm).2 _ le_rfl
            (noRatingKeysElems_mem xs (by rw [noRatingKeys] at hnr; exact hnr)) d
      | null => unfold findRatingInObject; rfl
      | bool b => unfold findRatingInObject; rfl
      | num m => unfold findRatingInObject; rfl
      | str s => unfold findRatingInObject; rfl
    · intro vals hsize hmem d
      cases vals with
      | nil => unfold findRatingChildren; rfl
      | cons v rest =>
        have hrest : sizeOf rest < n := by
          have : sizeOf rest < sizeOf (v :: rest) := by simp
          omega
        have hrestmem : ∀ x ∈ rest, noRatingKeys x = true :=
          fun x hx => hmem x (List.mem_cons_of_mem v hx)
        unfold findRatingChildren
        cases v with
        | obj fs =>
          have hv : sizeOf (Json.obj fs) < n := by
            have : sizeOf (Json.obj fs) < sizeOf (Json.obj fs :: rest) := by
              simp
              omega
            omega
          have h1 : findRatingInObject (.obj fs) ratingFieldCandidates (d + 1) = 0 :=
            (ih _ hv).1 _ le_rfl (hmem _ (by simp)) (d + 1)
          simp only [h1]
          rw [if_neg (show ¬ (0 : Int) > 0 by omega)]
          exact (ih _ hrest).2 rest le_rfl hrestmem d
        | arr xs => exact (ih _ hrest).2 rest le_rfl hrestmem d
        | null => exact (ih _ hrest).2 rest le_rfl hrestmem d
        | bool b => exact (ih _ hrest).2 rest le_rfl hrestmem d
        | num m => exact (ih _ hrest).2 rest le_rfl hrestmem d
        | str s => exact (ih _ hrest).2 rest le_rfl hrestmem d

theorem findRating_noRating (j : Json) (h : noRatingKeys j = true) (d : Nat) :
    findRatingInObject j ratingFieldCandidates d = 0 :=
  (findRating_noRating_mutual (sizeOf j)).1 j le_rfl h d

theorem noRatingKeys_apiNoteData (j : Json) (h : noRatingKeys j = true) :
    noRatingKeys (apiNoteData j) = true := by
  cases hget : jsGet j "data" with
  | none => simp only [apiNoteData, hget]; exact h
  | some v =>
    simp only [apiNoteData, hget]
    by_cases ht : truthy v = true
    · rw [if_pos ht]; exact noRatingKeys_get j "data" v h hget
    · rw [if_neg ht]; exact h

theorem noRatingKeys_apiInner (j : Json) (h : noRatingKeys j = true) :
    noRatingKeys (apiInner j) = true := by
  cases hget : jsGet j "note" with
  | none => simp only [apiInner, hget]; exact h
  | some v =>
    simp only [apiInner, hget]
    by_cases ht : truthy v = true
    · rw [if_pos ht]; exact noRatingKeys_get j "note" v h hget
    · rw [if_neg ht]; exact h

/-- The detail-API step only ever reports strictly positive ratings. -/
theorem apiRatingStep_some_pos (api : DetailApiResult) (r : Int)
    (h : (apiRatingStep api).1 = some r) : 0 < r := by
  cases api with
  | netErr => simp [apiRatingStep] at h
  | httpErr => simp [apiRatingStep] at h
  | ok apiData =>
    simp only [apiRatingStep] at h
    by_cases h1 : safeNum (apiInner (apiNoteData apiData)) ratingFieldCandidates > 0
    · rw [if_pos h1] at h
      simp only [Option.some.injEq] at h
      omega
    · rw [if_neg h1] at h
      by_cases h2 : safeNum (apiNoteData apiData) ratingFieldCandidates > 0
      · rw [if_pos h2] at h
        simp only [Option.some.injEq] at h
        omega
      · rw [if_neg h2] at h
        simp at h

/-- Without rating-specific keys anywhere in the body, the detail-API
step finds nothing and reports no network error. -/
theorem apiRatingStep_noRating (apiData : Json)
    (h : noRatingKeys apiData = true) :
    apiRatingStep (.ok apiData) = (none, false) := by
  have hnd := noRatingKeys_apiNoteData apiData h
  have hin := noRatingKeys_apiInner _ hnd
  simp only [apiRatingStep]
  rw [safeNum_noRating _ hin, safeNum_noRating _ hnd]
  norm_num

/-- The structural content of "no matching HTML pattern": none of the
three text patterns matched and the `__NEXT_DATA__` payload, when
present, carries no rating-candidate key. -/
def noHtmlRatingMatch (p : HtmlPage) : Prop :=
  p.ratingText = none ∧ p.nuxtRating = none ∧ p.jsonRating = none ∧
    (∀ j, p.nextData = some j → noRatingKeys j = true)

theorem htmlRatingStep_nonneg (page : PageFetchResult) :
    0 ≤ htmlRatingStep page := by
  cases page with
  | netErr => exact le_refl 0
  | httpErr => exact le_refl 0
  | ok html =>
    unfold htmlRatingStep
    cases hrt : html.ratingText with
    | some c => simp only [hrt]; exact Int.natCast_nonneg c
    | none =>
      simp only [hrt]
      by_cases hx : (match html.nextData with
        | some j => findRatingInObject j ratingFieldCandidates 0
        | none => 0) > 0
      · rw [if_pos hx]; omega
      · rw [if_neg hx]
        cases hn : html.nuxtRating with
        | some c => exact Int.natCast_nonneg c
        | none =>
          cases hj : html.jsonRating with
          | some c => exact Int.natCast_nonneg c
          | none => exact le_refl 0

theorem htmlRatingStep_noMatch (html : HtmlPage) (h : noHtmlRatingMatch html) :
    htmlRatingStep (.ok html) = 0 := by
  obtain ⟨h1, h2, h3, h4⟩ := h
  unfold htmlRatingStep
  simp only [h1]
  have hx : (match html.nextData with
      | some j => findRatingInObject j ratingFieldCandidates 0
      | none => 0) = (0 : Int) := by
    cases hn : html.nextData with
    | some j => exact findRating_noRating j (h4 j hn) 0
    | none => rfl
  rw [hx, if_neg (show ¬ (0 : Int) > 0 by omega), h2, h3]

/-- C4: `fetchLikeRating` never fails and always returns a non-negative
integer; it returns 0 immediately when the URL is empty or no item
identifier can be parsed from it; and when the detail-API body carries
no rating-specific field (engagement-count fields such as `like_count`
are not rating candidates) and no HTML pattern matches either, the
result is 0 — an engagement count never becomes the rating value. -/
theorem fetchLikeRating_contract :
    (∀ (url : String) (api : DetailApiResult) (page : PageFetchResult),
      0 ≤ fetchLikeRating url api page)
    ∧ (∀ api page, fetchLikeRating "" api page = 0)
    ∧ (∀ url api page, extractNoteKey url = none →
        fetchLikeRating url api page = 0)
    ∧ (∀ (url : String) (apiBody : Json) (page : PageFetchResult),
        noRatingKeys apiBody = true →
        (∀ p, page = PageFetchResult.ok p → noHtmlRatingMatch p) →
        fetchLikeRating url (.ok apiBody) page = 0) := by
  refine ⟨?_, ?_, ?_, ?_⟩
  · intro url api page
    unfold fetchLikeRating
    by_cases hu : url = ""
    · rw [if_pos hu]
    · rw [if_neg hu]
      cases hk : extractNoteKey url with
      | none => simp only [hk]; exact le_refl 0
      | some key =>
        simp only [hk]
        cases hr : (apiRatingStep api).1 with
        | some r =>
          simp only [hr]
          exact le_of_lt (apiRatingStep_some_pos api r hr)
        | none =>
          simp only [hr]
          by_cases hn : (apiRatingStep api).2 = true
          · rw [if_pos hn]
          · rw [if_neg hn]
            exact htmlRatingStep_nonneg page
  · intro api page
    unfold fetchLikeRating
    rw [if_pos rfl]
  · intro url api page h
    unfold fetchLikeRating
    by_cases hu : url = ""
    · rw [if_pos hu]
    · rw [if_neg hu]
      simp only [h]
  · intro url apiBody page hnr hpage
    unfold fetchLikeRating
    by_cases hu : url = ""
    · rw [if_pos hu]
    · rw [if_neg hu]
      cases hk : extractNoteKey url with
      | none => simp only [hk]
      | some key =>
        simp only [hk]
        rw [apiRatingStep_noRating apiBody hnr]
        show htmlRatingStep page = 0
        cases page with
        | netErr => rfl
        | httpErr => rfl
        | ok p => exact htmlRatingStep_noMatch p (hpage p rfl)

/-- Witness for C4 at concrete inputs, including an item exposing only
`like_count` (999) both in the API body and in the embedded
`__NEXT_DATA__` payload, which still resolves to rating 0. -/
theorem fetchLikeRating_contract_witness :
    0 ≤ fetchLikeRating "u" .netErr .netErr
    ∧ fetchLikeRating "" .netErr .netErr = 0
    ∧ fetchLikeRating "https://note.com/user" .netErr .netErr = 0
    ∧ fetchLikeRating "https://note.com/user/n/nkey1"
        (.ok (.obj [("data",
          .obj [("like_count", .num 999), ("name", .str "t")])]))
        (.ok { ratingText := none,
               nextData := some (.obj [("like_count", .num 999)]),
               nuxtRating := none, jsonRating := none }) = 0 :=
  ⟨fetchLikeRating_contract.1 "u" _ _,
   fetchLikeRating_contract.2.1 _ _,
   fetchLikeRating_contract.2.2.1 _ _ _ rfl,
   fetchLikeRating_contract.2.2.2 _ _ _
     (by simp [noRatingKeys, noRatingKeysFields, noRatingKeysElems,
               ratingFieldCandidates])
     (by
       intro p hp
       cases hp
       refine ⟨rfl, rfl, rfl, ?_⟩
       intro j hj
       cases hj
       simp [noRatingKeys, noRatingKeysFields, noRatingKeysElems,
             ratingFieldCandidates])⟩

/-!
### C2 / C8 — Field Normalizer numeric lookup
-/

/-- The numeric fields of a normalized Article, extracted from a
successful run of `extractArticleFromNote`: each is the inner view's
`safeNum` result when that result is non-zero, the outer item's
otherwise (the JS `||` between the two `safeNum` calls). -/
theorem extractArticle_fields (note : Json) (a : Article)
    (h : extractArticleFromNote note = some a) :
    a.likeCount = (if safeNum (innerView note) likeCountKeys ≠ 0
        then safeNum (innerView note) likeCountKeys
        else safeNum note likeCountKeys)
    ∧ a.price = (if safeNum (innerView note) priceKeys ≠ 0
        then safeNum (innerView note) priceKeys
        else safeNum note priceKeys) := by
  unfold extractArticleFromNote at h
  by_cases hg : (truthy note && isObjLike note) = true
  · simp only [hg, Bool.not_true, Bool.false_eq_true, if_false] at h
    cases hurl : buildNoteUrl note (innerView note) with
    | none => simp only [hurl] at h; cases h
    | some u =>
      simp only [hurl, Option.some.injEq] at h
      constructor
      · rw [← h]
      · rw [← h]
  · have hg2 : (truthy note && isObjLike note) = false :=
      Bool.eq_false_iff.mpr (fun hx => hg hx)
    simp only [hg2, Bool.not_false, if_true] at h
    cases h

/-- Raw item exhibiting the `||` fallthrough: the inner view holds
`like_count` 0, the outer item holds `like_count` 7. -/
def innerZeroNote : Json :=
  .obj [("note", .obj [("name", .str "t"), ("like_count", .num 0)]),
        ("like_count", .num 7)]

/-- C2 (counterexample): an inner numeric field holding 0 does not win
over an outer field of the same name holding 7 — the normalizer
returns 7, not 0, because the `||` between the two `safeNum` calls
treats the inner result 0 as falsy. -/
theorem innerZero_falls_through :
    (extractArticleFromNote innerZeroNote).map Article.likeCount = some 7
    ∧ (extractArticleFromNote innerZeroNote).map Article.likeCount ≠ some 0 := by
  refine ⟨rfl, ?_⟩
  intro hc
  rw [show (extractArticleFromNote innerZeroNote).map Article.likeCount
      = some 7 from rfl] at hc
  simp at hc

/-- The spec-worded per-view lookup: across the ordered candidate
list, the first name whose value is non-null, non-undefined and parses
to a non-NaN number wins; 0 when the input is not an object or no
candidate matches. -/
def safeNumSpec (o : Json) (keys : List String) : Int :=
  if isObjLike o then
    (keys.findSome? (fun k =>
      match jsGet o k with
      | none => none
      | some .null => none
      | some v => jsToNumber v)).getD 0
  else 0

theorem safeNum_eq_spec (o : Json) (keys : List String) :
    safeNum o keys = safeNumSpec o keys := by
  have hloop : ∀ ks : List String, safeNumLoop o ks =
      (ks.findSome? (fun k =>
        match jsGet o k with
        | none => none
        | some .null => none
        | some v => jsToNumber v)).getD 0 := by
    intro ks
    induction ks with
    | nil => rfl
    | cons c cs ih =>
      rw [List.findSome?_cons]
      unfold safeNumLoop
      cases hget : jsGet o c with
      | none => simpa using ih
      | some v =>
        cases v with
        | null => simpa using ih
        | bool b => simp [jsToNumber]
        | num n => simp [jsToNumber]
        | str s =>
          cases hn : jsToNumber (.str s) with
          | none => simpa [hn] using ih
          | some n => simp [hn]
        | arr xs =>
          cases hn : jsToNumber (.arr xs) with
          | none => simpa [hn] using ih
          | some n => simp [hn]
        | obj fs =>
          cases hn : jsToNumber (.obj fs) with
          | none => simpa [hn] using ih
          | some n => simp [hn]
  cases o with
  | obj fs => rw [show safeNum (.obj fs) keys = safeNumLoop (.obj fs) keys from rfl,
                  hloop, safeNumSpec]; rfl
  | arr xs => rw [show safeNum (.arr xs) keys = safeNumLoop (.arr xs) keys from rfl,
                  hloop, safeNumSpec]; rfl
  | null => rfl
  | bool b => rfl
  | num n => rfl
  | str s => rfl

/-- C2 (amended): each numeric field is resolved by trying the full
candidate-name list on the inner view with first-non-null/non-NaN-wins
semantics (`safeNum` = the spec-worded first-match lookup), and the
outer item's lookup is used only when the inner view's lookup resolves
to 0 — so an inner field holding 0 falls through to the outer item
instead of winning. -/
theorem normalizer_numeric_lookup :
    (∀ (o : Json) (keys : List String), safeNum o keys = safeNumSpec o keys)
    ∧ (∀ (note : Json) (a : Article), extractArticleFromNote note = some a →
        a.likeCount = (if safeNum (innerView note) likeCountKeys ≠ 0
            then safeNum (innerView note) likeCountKeys
            else safeNum note likeCountKeys)
        ∧ a.price = (if safeNum (innerView note) priceKeys ≠ 0
            then safeNum (innerView note) priceKeys
            else safeNum note priceKeys)) :=
  ⟨safeNum_eq_spec, extractArticle_fields⟩

/-- Witness for C2 at the concrete fallthrough item: the extracted
likeCount (7) equals the `||`-structured lookup. -/
theorem normalizer_numeric_lookup_witness :
    ({ title := "t", likeCount := 7, price := 0, url := "", creator := "",
       likeRating := none } : Article).likeCount
      = (if safeNum (innerView innerZeroNote) likeCountKeys ≠ 0
         then safeNum (innerView innerZeroNote) likeCountKeys
         else safeNum innerZeroNote likeCountKeys) :=
  (normalizer_numeric_lookup.2 innerZeroNote _ rfl).1

/-- Raw item whose engagement-count and price fields hold negative
numbers. -/
def negativeCountNote : Json :=
  .obj [("name", .str "t"), ("like_count", .num (-5)),
        ("price", .num (-200))]

/-- C8 (counterexample): a raw item whose `like_count` is -5 and whose
`price` is -200 normalizes to an Article with likeCount -5 and price
-200 — the normalizer performs no clamping, so the non-negativity
claim fails for items with negative numeric fields. -/
theorem extractArticle_negative_passthrough :
    (extractArticleFromNote negativeCountNote).map
        (fun a => (a.likeCount, a.price)) = some (-5, -200)
    ∧ (-5 : Int) < 0 ∧ (-200 : Int) < 0 := by
  refine ⟨rfl, by norm_num, by norm_num⟩

/-- Every candidate field of the object (among the given keys) that
coerces to a number coerces to a non-negative one. -/
def nonNegNumFields (o : Json) : List String → Bool
  | [] => true
  | k :: ks =>
    (match jsGet o k with
     | none => true
     | some v =>
       match jsToNumber v with
       | some n => decide (0 ≤ n)
       | none => true) && nonNegNumFields o ks

theorem safeNumLoop_nonneg (o : Json) (keys : List String)
    (h : nonNegNumFields o keys = true) : 0 ≤ safeNumLoop o keys := by
  induction keys with
  | nil => exact le_refl 0
  | cons c cs ih =>
    rw [nonNegNumFields] at h
    simp only [Bool.and_eq_true] at h
    obtain ⟨hc, hcs⟩ := h
    unfold safeNumLoop
    cases hget : jsGet o c with
    | none => exact ih hcs
    | some v =>
      rw [hget] at hc
      cases v with
      | null => exact ih hcs
      | bool b => cases b <;> simp [jsToNumber]
      | num n0 => simpa [jsToNumber] using hc
      | str s0 =>
        cases hn : jsToNumber (.str s0) with
        | none => simpa [hn] using ih hcs
        | some n => simp only [hn] at hc ⊢; simpa using hc
      | arr xs =>
        cases hn : jsToNumber (.arr xs) with
        | none => simpa [hn] using ih hcs
        | some n => simp only [hn] at hc ⊢; simpa using hc
      | obj fs => exact ih hcs

theorem safeNum_nonneg (o : Json) (keys : List String)
    (h : nonNegNumFields o keys = true) : 0 ≤ safeNum o keys := by
  cases o with
  | obj fs => exact safeNumLoop_nonneg _ _ h
  | arr xs => exact safeNumLoop_nonneg _ _ h
  | null => exact le_refl 0
  | bool b => exact le_refl 0
  | num n => exact le_refl 0
  | str s => exact le_refl 0

/-- C8 (amended): every Article produced by the Field Normalizer has a
non-negative likeCount and price provided each engagement-count and
price candidate field of the item and of its inner view coerces to a
non-negative number (numeric strings included); a negative field value
instead passes through unclamped into the Article. -/
theorem extractArticle_nonneg (note : Json) (a : Article)
    (hl1 : nonNegNumFields (innerView note) likeCountKeys = true)
    (hl2 : nonNegNumFields note likeCountKeys = true)
    (hp1 : nonNegNumFields (innerView note) priceKeys = true)
    (hp2 : nonNegNumFields note priceKeys = true)
    (h : extractArticleFromNote note = some a) :
    0 ≤ a.likeCount ∧ 0 ≤ a.price := by
  obtain ⟨hlike, hprice⟩ := extractArticle_fields note a h
  constructor
  · rw [hlike]
    by_cases hz : safeNum (innerView note) likeCountKeys ≠ 0
    · rw [if_pos hz]; exact safeNum_nonneg _ _ hl1
    · rw [if_neg hz]; exact safeNum_nonneg _ _ hl2
  · rw [hprice]
    by_cases hz : safeNum (innerView note) priceKeys ≠ 0
    · rw [if_pos hz]; exact safeNum_nonneg _ _ hp1
    · rw [if_neg hz]; exact safeNum_nonneg _ _ hp2

/-- Witness for C8 at a concrete item with a numeric-string count and
a zero price. -/
theorem extractArticle_nonneg_witness :
    0 ≤ ({ title := "", likeCount := 12, price := 0, url := "",
           creator := "", likeRating := none } : Article).likeCount
    ∧ 0 ≤ ({ title := "", likeCount := 12, price := 0, url := "",
             creator := "", likeRating := none } : Article).price :=
  extractArticle_nonneg
    (.obj [("like_count", .str "12"), ("price", .num 0)]) _
    (by decide) (by decide) (by decide) (by decide) rfl

/-!
### C1 — JSON Tree Locator priority order
-/

theorem findFirstEligible_append (as bs : List (Option Json × Bool)) :
    findFirstEligible (as ++ bs) =
      (match findFirstEligible as with
       | some l => some l
       | none => findFirstEligible bs) := by
  induction as with
  | nil => rfl
  | cons c cs ih =>
    rw [List.cons_append]
    cases h : eligibleAt c with
    | some l => simp [findFirstEligible, h]
    | none => simp [findFirstEligible, h, ih]

theorem findFirstEligible_plain (vs : List (Option Json)) :
    findFirstEligible (vs.map (fun v => (v, false))) = findFirstArr vs := by
  induction vs with
  | nil => rfl
  | cons v vs ih =>
    cases h : asNonEmptyArr v with
    | some l => simp [findFirstEligible, findFirstArr, eligibleAt, h]
    | none => simp [findFirstEligible, findFirstArr, eligibleAt, h, ih]

theorem findFirstEligible_entries (fs : List (String × Json)) :
    findFirstEligible (fs.map (fun p => (some p.2, true))) = scanEntries fs := by
  induction fs with
  | nil => rfl
  | cons p rest ih =>
    cases p with
    | mk k v =>
      cases h : asObjFirstArr (some v) with
      | some l => simp [findFirstEligible, scanEntries, eligibleAt, h]
      | none => simp [findFirstEligible, scanEntries, eligibleAt, h, ih]

theorem findFirstEligible_entries_skip (es : List (String × Json)) :
    findFirstEligible
        ((es.filter (fun p => p.1 ≠ "data")).map (fun p => (some p.2, true)))
      = scanEntriesSkipData es := by
  induction es with
  | nil => rfl
  | cons p rest ih =>
    cases p with
    | mk k v =>
      simp only [ne_eq, decide_not] at ih
      by_cases hk : k = "data"
      · subst hk
        simp only [List.filter_cons, decide_not, ne_eq]
        simp [scanEntriesSkipData, ih]
      · cases h : asObjFirstArr (some v) with
        | some l =>
          simp only [List.filter_cons, decide_not, ne_eq]
          simp [scanEntriesSkipData, findFirstEligible, eligibleAt, hk, h]
        | none =>
          simp only [List.filter_cons, decide_not, ne_eq]
          simp [scanEntriesSkipData, findFirstEligible, eligibleAt, hk, h, ih]

theorem findFirstEligible_single (v : Option Json) :
    findFirstEligible [(v, false)] =
      (match asNonEmptyArr v with | some l => some l | none => none) := by
  cases h : asNonEmptyArr v <;> simp [findFirstEligible, eligibleAt, h]

theorem findFirstEligible_stage3 (data : Json) :
    findFirstEligible (match jsGet data "data" with
      | some (.obj fs) => fs.map (fun p => (some p.2, true))
      | _ => []) =
      (match jsGet data "data" with
       | some (.obj fs) => scanEntries fs
       | _ => none) := by
  cases h : jsGet data "data" with
  | none => rfl
  | some v => cases v <;> simp [findFirstEligible_entries, findFirstEligible]

/-- C1 (amended): the locator returns the first eligible candidate of
the flat priority list — the nine dotted paths, then `data` itself,
then the properties of a non-array `data` object in enumeration order,
then the top-level properties other than `data` — never a later one;
the dotted-path and `data`-itself candidates are eligible when they are
non-empty arrays, while only the two enumeration stages additionally
require the first element to be a non-null object; null/non-object
input and no-match yield the empty sequence. -/
theorem locator_first_match (data : Json) :
    findNotesArray data = findNotesArraySpec data := by
  unfold findNotesArray findNotesArraySpec
  cases hobj : isObjLike data with
  | false => simp
  | true =>
    simp only [Bool.not_true, Bool.false_eq_true, if_false]
    unfold locatorCandidates
    rw [findFirstEligible_append, findFirstEligible_append,
        findFirstEligible_append, findFirstEligible_plain,
        findFirstEligible_single, findFirstEligible_stage3,
        findFirstEligible_entries_skip]
    cases h1 : findFirstArr (pathCandidates data) with
    | some l => simp [h1]
    | none =>
      simp only [h1]
      cases h2 : asNonEmptyArr (jsGet data "data") with
      | some l => simp [h2]
      | none =>
        simp only [h2]
        cases h3 : (match jsGet data "data" with
          | some (.obj fs) => scanEntries fs
          | _ => none) with
        | some l => simp [h3]
        | none => simp only [h3]

/-- An API response whose `notes` property is a non-empty array of
primitives. -/
def primitiveArrayResponse : Json := .obj [("notes", .arr [.num 1])]

/-- C1 (counterexample): the dotted-path stage accepts a non-empty
array of primitives — `findNotesArray {notes: [1]}` returns `[1]`,
whereas under the claim's uniform eligibility rule (first element must
be a non-null object) no candidate would match and the result would be
empty. -/
theorem locator_accepts_primitive_array :
    findNotesArray primitiveArrayResponse = [Json.num 1]
    ∧ findNotesArrayClaimedSpec primitiveArrayResponse = [] :=
  ⟨rfl, rfl⟩

/-!
### C5 — `fetchFromAPI` error handling and stopping
-/

/-- Loop exit: the target is already reached on entry. -/
theorem fetchFromAPIGo_stop (pages : Nat → SearchPageResult) (t idx : Nat)
    (acc : List Article) (hge : ¬ acc.length < t) :
    fetchFromAPIGo pages t idx acc =
      (if acc.length > 0 then some acc else none, idx) := by
  rw [fetchFromAPIGo, dif_neg hge]

/-- Any fetch failure on the current page fails the whole call. -/
theorem fetchFromAPIGo_err (pages : Nat → SearchPageResult) (t idx : Nat)
    (acc : List Article) (hlt : acc.length < t)
    (he : searchPageFails (pages idx) = true) :
    fetchFromAPIGo pages t idx acc = (none, idx + 1) := by
  rw [fetchFromAPIGo, dif_pos hlt]
  cases hp : pages idx with
  | netErr => rfl
  | httpErr => rfl
  | jsonErr => rfl
  | ok body => rw [hp] at he; simp [searchPageFails] at he

/-- A page with zero normalized items ends the loop. -/
theorem fetchFromAPIGo_break (pages : Nat → SearchPageResult) (t idx : Nat)
    (acc : List Article) (d : Json) (hlt : acc.length < t)
    (hok : pages idx = .ok d) (hemp : extractNotesFromApiResponse d = []) :
    fetchFromAPIGo pages t idx acc =
      (if acc.length > 0 then some acc else none, idx + 1) := by
  rw [fetchFromAPIGo, dif_pos hlt]
  rw [hok]
  simp only [hemp]

/-- A page with items pushes them (up to the target) and continues. -/
theorem fetchFromAPIGo_step (pages : Nat → SearchPageResult) (t idx : Nat)
    (acc : List Article) (d : Json) (p : Article) (ps : List Article)
    (hlt : acc.length < t) (hok : pages idx = .ok d)
    (hne : extractNotesFromApiResponse d = p :: ps) :
    fetchFromAPIGo pages t idx acc =
      fetchFromAPIGo pages t (idx + 1)
        (acc ++ (p :: ps).take (t - acc.length)) := by
  rw [fetchFromAPIGo, dif_pos hlt]
  rw [hok]
  simp only [hne]

theorem fetchFromAPIGo_spec (pages : Nat → SearchPageResult) (t : Nat) :
    ∀ (m idx : Nat) (acc : List Article), t - acc.length ≤ m →
      acc.length ≤ t →
      (∀ l n, fetchFromAPIGo pages t idx acc = (some l, n) →
        0 < l.length ∧ l.length ≤ t
        ∧ (l.length < t →
            ∃ d, pages (n - 1) = .ok d ∧ extractNotesFromApiResponse d = []))
      ∧ (∀ res n, fetchFromAPIGo pages t idx acc = (res, n) →
          ∀ k, idx ≤ k → k < n → searchPageFails (pages k) = true →
            res = none) := by
  intro m
  induction m with
  | zero =>
    intro idx acc hm hacc
    have hge : ¬ acc.length < t := by omega
    rw [fetchFromAPIGo_stop pages t idx acc hge]
    constructor
    · intro l n h
      by_cases hpos : acc.length > 0
      · rw [if_pos hpos] at h
        injection h with h1 h2
        injection h1 with h1
        subst h1
        refine ⟨hpos, hacc, ?_⟩
        intro hshort
        omega
      · rw [if_neg hpos] at h
        injection h with h1 h2
        cases h1
    · intro res n h k hk1 hk2 hfail
      injection h with h1 h2
      omega
  | succ m ih =>
    intro idx acc hm hacc
    by_cases hlt : acc.length < t
    · cases hp : pages idx with
      | netErr =>
        rw [fetchFromAPIGo_err pages t idx acc hlt (by rw [hp]; rfl)]
        constructor
        · intro l n h
          injection h with h1 h2
          cases h1
        · intro res n h k hk1 hk2 hfail
          injection h with h1 h2
          subst h1
          rfl
      | httpErr =>
        rw [fetchFromAPIGo_err pages t idx acc hlt (by rw [hp]; rfl)]
        constructor
        · intro l n h
          injection h with h1 h2
          cases h1
        · intro res n h k hk1 hk2 hfail
          injection h with h1 h2
          subst h1
          rfl
      | jsonErr =>
        rw [fetchFromAPIGo_err pages t idx acc hlt (by rw [hp]; rfl)]
        constructor
        · intro l n h
          injection h with h1 h2
          cases h1
        · intro res n h k hk1 hk2 hfail
          injection h with h1 h2
          subst h1
          rfl
      | ok d =>
        cases he : extractNotesFromApiResponse d with
        | nil =>
          rw [fetchFromAPIGo_break pages t idx acc d hlt hp he]
          constructor
          · intro l n h
            by_cases hpos : acc.length > 0
            · rw [if_pos hpos] at h
              injection h with h1 h2
              injection h1 with h1
              subst h1
              subst h2
              refine ⟨hpos, hacc, ?_⟩
              intro _
              refine ⟨d, ?_, he⟩
              rw [show idx + 1 - 1 = idx by omega]
              exact hp
            · rw [if_neg hpos] at h
              injection h with h1 h2
              cases h1
          · intro res n h k hk1 hk2 hfail
            injection h with h1 h2
            subst h2
            have hk : k = idx := by omega
            subst hk
            rw [hp] at hfail
            simp [searchPageFails] at hfail
        | cons p ps =>
          rw [fetchFromAPIGo_step pages t idx acc d p ps hlt hp he]
          have hlen : (acc ++ (p :: ps).take (t - acc.length)).length
              = acc.length + min (t - acc.length) (ps.length + 1) := by
            simp [List.length_append, List.length_take]
          have hm2 : t - (acc ++ (p :: ps).take (t - acc.length)).length ≤ m := by
            rw [hlen]; omega
          have hacc2 : (acc ++ (p :: ps).take (t - acc.length)).length ≤ t := by
            rw [hlen]; omega
          obtain ⟨ihsome, iherr⟩ := ih (idx + 1) _ hm2 hacc2
          constructor
          · exact ihsome
          · intro res n h k hk1 hk2 hfail
            by_cases hk : k = idx
            · subst hk
              rw [hp] at hfail
              simp [searchPageFails] at hfail
            · exact iherr res n h k (by omega) hk2 hfail
    · rw [fetchFromAPIGo_stop pages t idx acc hlt]
      constructor
      · intro l n h
        by_cases hpos : acc.length > 0
        · rw [if_pos hpos] at h
          injection h with h1 h2
          injection h1 with h1
          subst h1
          refine ⟨hpos, hacc, ?_⟩
          intro hshort
          omega
        · rw [if_neg hpos] at h
          injection h with h1 h2
          cases h1
      · intro res n h k hk1 hk2 hfail
        injection h with h1 h2
        omega

/-- C5: `fetchFromAPI` returns a non-null result only when at least one
item was collected and never more than `targetCount` items (excess from
the final page is discarded); a run whose result list is shorter than
the target ended because its last page yielded zero normalized items;
and whenever any issued page request failed (non-success status,
network error or JSON-decode failure) the whole call returns null. -/
theorem fetchFromAPI_contract (pairs : List (String × String))
    (pages : Nat → SearchPageResult) (t : Nat) :
    (∀ l n, fetchFromAPI pairs pages t = (some l, n) →
      0 < l.length ∧ l.length ≤ t
      ∧ (l.length < t →
          ∃ d, pages (n - 1) = .ok d ∧ extractNotesFromApiResponse d = []))
    ∧ (∀ res n, fetchFromAPI pairs pages t = (res, n) →
        (∃ k, k < n ∧ searchPageFails (pages k) = true) → res = none) := by
  simp only [fetchFromAPI]
  by_cases hq : (getSearchParams pairs).q = ""
  · rw [if_pos hq]
    constructor
    · intro l n h
      injection h with h1 h2
      cases h1
    · intro res n h hex
      injection h with h1 h2
      subst h1
      rfl
  · rw [if_neg hq]
    obtain ⟨hsome, herr⟩ :=
      fetchFromAPIGo_spec pages t t 0 [] (by simp) (by simp)
    refine ⟨hsome, ?_⟩
    rintro res n h ⟨k, hk, hfail⟩
    exact herr res n h k (by omega) hk hfail

/-- A one-item API response and its normalized article. -/
def oneItemResponse : Json := .obj [("notes", .arr [.obj [("name", .str "A")]])]

def oneArticle : Article :=
  { title := "A", likeCount := 0, price := 0, url := "", creator := "",
    likeRating := none }

/-- Witness for C5: a concrete run that requests one article from a
network always answering the same one-item page collects exactly one
article in one request. -/
theorem fetchFromAPI_contract_witness :
    0 < ([oneArticle] : List Article).length
    ∧ ([oneArticle] : List Article).length ≤ 1
    ∧ (([oneArticle] : List Article).length < 1 →
        ∃ d, (fun _ => SearchPageResult.ok oneItemResponse) (1 - 1) = .ok d
          ∧ extractNotesFromApiResponse d = []) :=
  (fetchFromAPI_contract [("q", "x")] (fun _ => .ok oneItemResponse) 1).1
    [oneArticle] 1
    (by
      simp only [fetchFromAPI]
      rw [if_neg (by decide)]
      rw [fetchFromAPIGo_step (fun _ => .ok oneItemResponse) 1 0 []
        oneItemResponse oneArticle [] (by decide) rfl rfl]
      rw [show ([] ++ ([oneArticle] : List Article).take (1 - ([] : List Article).length))
          = [oneArticle] from rfl]
      rw [fetchFromAPIGo_stop (fun _ => .ok oneItemResponse) 1 1 [oneArticle]
        (by decide)]
      rfl)

/-!
### C6 — Scroll Collector termination
-/

def oscArticleA : Article :=
  { title := "a", likeCount := 0, price := 0, url := "https://note.com/u/n/na",
    creator := "", likeRating := none }

def oscArticleB : Article :=
  { title := "b", likeCount := 0, price := 0, url := "https://note.com/u/n/nb",
    creator := "", likeRating := none }

/-- A DOM source whose harvested count oscillates between 1 and 2 on
every scroll: virtualized feeds that drop off-screen items behave like
this. -/
def oscSnaps : Nat → List Article := fun i =>
  if i % 2 = 0 then [oscArticleA] else [oscArticleA, oscArticleB]

theorem oscSnaps_length (i : Nat) :
    (oscSnaps i).length = if i % 2 = 0 then 1 else 2 := by
  unfold oscSnaps
  split <;> rfl

/-- C6 (counterexample): with the oscillating DOM source and target 3,
the loop never returns — the count changes on every attempt, so the
stagnation counter resets forever and the count never reaches the
target; the claim that the loop terminates for every snapshot sequence
is false. -/
theorem autoScroll_nonterminating : ¬ autoScrollTerminates oscSnaps 3 := by
  have key : ∀ (fuel i last retries : Nat), last ≠ (oscSnaps i).length →
      autoScrollGo oscSnaps 3 fuel i last retries = none := by
    intro fuel
    induction fuel with
    | zero => intro i last retries _; rfl
    | succ fuel ih =>
      intro i last retries hne
      have hlen := oscSnaps_length i
      have hlen2 := oscSnaps_length (i + 1)
      have hsmall : ¬ (oscSnaps i).length ≥ 3 := by
        rcases Nat.even_or_odd i with he | ho
        · rw [hlen, if_pos (Nat.even_iff.mp he)]; omega
        · rw [hlen, if_neg (by rw [Nat.odd_iff.mp ho]; omega)]; omega
      have hneq : ¬ (oscSnaps i).length = last := fun hh => hne hh.symm
      simp only [autoScrollGo]
      rw [if_neg hsmall, if_neg hneq]
      apply ih
      rcases Nat.even_or_odd i with he | ho
      · rw [hlen, if_pos (Nat.even_iff.mp he),
            hlen2, if_neg (by have := Nat.even_iff.mp he; omega)]
        omega
      · rw [hlen, if_neg (by rw [Nat.odd_iff.mp ho]; omega),
            hlen2, if_pos (by have := Nat.odd_iff.mp ho; omega)]
        omega
  rintro ⟨fuel, r, hr⟩
  rw [show autoScrollAndCollect oscSnaps 3 fuel = autoScrollGo oscSnaps 3 fuel 0 0 0
      from rfl] at hr
  rw [key fuel 0 0 0 (by rw [oscSnaps_length 0]; simp)] at hr
  cases hr

/-- Shape of every value the loop can return: either the current
snapshot trimmed to exactly the target (when it reached the target) or
the current snapshot kept as-is with fewer than the target (on
stagnation). -/
theorem autoScrollGo_some_shape (snaps : Nat → List Article) (target : Nat) :
    ∀ (fuel i last retries : Nat) (r : List Article),
      autoScrollGo snaps target fuel i last retries = some r →
      (∃ j, r = (snaps j).take target ∧ target ≤ (snaps j).length)
      ∨ (∃ j, r = snaps j ∧ r.length < target) := by
  intro fuel
  induction fuel with
  | zero => intro i last retries r h; cases h
  | succ fuel ih =>
    intro i last retries r h
    simp only [autoScrollGo] at h
    by_cases h1 : (snaps i).length ≥ target
    · rw [if_pos h1] at h
      injection h with h2
      exact Or.inl ⟨i, h2.symm, h1⟩
    · rw [if_neg h1] at h
      by_cases h2 : (snaps i).length = last
      · rw [if_pos h2] at h
        by_cases h3 : retries + 1 ≥ 15
        · rw [if_pos h3] at h
          injection h with h4
          exact Or.inr ⟨i, h4.symm, by rw [← h4]; omega⟩
        · rw [if_neg h3] at h
          exact ih _ _ _ _ h
      · rw [if_neg h2] at h
        exact ih _ _ _ _ h

/-- With a never-shrinking DOM source the loop returns within an
explicit fuel bound. -/
theorem autoScrollGo_terminates_monotone (snaps : Nat → List Article)
    (target : Nat) (hmono : ∀ i, (snaps i).length ≤ (snaps (i + 1)).length) :
    ∀ (fuel i last retries : Nat), last ≤ (snaps i).length → retries ≤ 14 →
      15 * (target - last) + (15 - retries) + 1 ≤ fuel →
      (autoScrollGo snaps target fuel i last retries).isSome := by
  intro fuel
  induction fuel with
  | zero => intro i last retries _ _ hf; omega
  | succ fuel ih =>
    intro i last retries hlast hret hf
    simp only [autoScrollGo]
    by_cases h1 : (snaps i).length ≥ target
    · rw [if_pos h1]; rfl
    · rw [if_neg h1]
      by_cases h2 : (snaps i).length = last
      · rw [if_pos h2]
        by_cases h3 : retries + 1 ≥ 15
        · rw [if_pos h3]; rfl
        · rw [if_neg h3]
          apply ih (i + 1) (snaps i).length (retries + 1)
          · exact hmono i
          · omega
          · rw [h2]; omega
      · rw [if_neg h2]
        apply ih (i + 1) (snaps i).length 0
        · exact hmono i
        · omega
        · have hstrict : last < (snaps i).length := by
            rcases Nat.lt_or_ge last (snaps i).length with hh | hh
            · exact hh
            · omega
          omega

/-- C6 (amended): for every target and every snapshot sequence whose
harvested count never shrinks between attempts, the loop terminates:
either some attempt reaches the target and the result is that snapshot
trimmed to exactly `targetCount` articles, or the count stagnates and
the loop returns keeping whatever was collected (fewer than requested);
an oscillating count, however, resets the stagnation counter forever
(see the counterexample). -/
theorem autoScroll_terminates_monotone (snaps : Nat → List Article)
    (target : Nat) (hmono : ∀ i, (snaps i).length ≤ (snaps (i + 1)).length) :
    ∃ fuel r, autoScrollAndCollect snaps target fuel = some r
      ∧ r.length ≤ target
      ∧ ((∃ j, r = (snaps j).take target ∧ target ≤ (snaps j).length)
         ∨ (∃ j, r = snaps j ∧ r.length < target)) := by
  have hterm := autoScrollGo_terminates_monotone snaps target hmono
    (15 * target + 16) 0 0 0 (by omega) (by omega) (by omega)
  cases hr : autoScrollGo snaps target (15 * target + 16) 0 0 0 with
  | none => rw [hr] at hterm; cases hterm
  | some r =>
    refine ⟨15 * target + 16, r, hr, ?_, ?_⟩
    · rcases autoScrollGo_some_shape snaps target _ _ _ _ _ hr with
        ⟨j, hj, hjlen⟩ | ⟨j, hj, hjlen⟩
      · rw [hj, List.length_take]; omega
      · omega
    · exact autoScrollGo_some_shape snaps target _ _ _ _ _ hr

/-- Witness for C6 at a constant (hence never-shrinking) empty DOM
source and target 0. -/
theorem autoScroll_terminates_monotone_witness :
    ∃ fuel r, autoScrollAndCollect (fun _ => ([] : List Article)) 0 fuel = some r
      ∧ r.length ≤ 0
      ∧ ((∃ j : Nat, r = (([] : List Article)).take 0
            ∧ 0 ≤ ([] : List Article).length)
         ∨ (∃ j : Nat, r = ([] : List Article) ∧ r.length < 0)) :=
  autoScroll_terminates_monotone (fun _ => []) 0 (fun _ => Nat.le_refl 0)
